import Mathlib

/-!
Verification of the composite spatial transform loader of
`fmriprep/utils/transforms.py` (functions `load_transforms`,
`load_ants_h5`, `parse_combined_hdf5`).

The Python source is shallowly embedded below.  Machine floats are
modelled as exact rationals (every operation the code performs on the
arrays — reshape, transpose, multiplication by the sign mask
`[-1, -1, 1]`, equality comparison against integer-valued fixed
parameters — is exact, so no rounding behaviour is lost).  The external
`nitransforms` / `h5py` collaborators are modelled from the
specification's description of their contracts, as noted on each
definition.
-/

set_option maxHeartbeats 1000000
set_option linter.unusedVariables false

namespace FmriprepTransforms

/-- Physical 4×4 homogeneous matrices (RAS millimetre coordinates). -/
abbrev M4 := Matrix (Fin 4) (Fin 4) ℚ

/-- A 3-d physical point. -/
abbrev Point := Fin 3 → ℚ

/-- A dense displacement field, indexed `warp x y z c` after parsing
(the model keeps it as a total function on indices; only indices inside
the `193 × 229 × 193 × 3` grid are meaningful). -/
abbrev Warp := Nat → Nat → Nat → Nat → ℚ

/-- Modelled from the spec: evaluation of a dense displacement field at a
point (interpolate the field at the point mapped into voxel space, add
the displacement).  The interpolation scheme lives in `nitransforms`
(external collaborator, out of scope), so the semantics of dense-field
evaluation is kept as a parameter of the evaluator. -/
abbrev DenseEval := Warp → M4 → Point → Point

/-- One record of the HDF5 `TransformGroup`: the `TransformType` byte
string (first element of the dataset), the 18-element
`TransformFixedParameters` vector and the flat `TransformParameters`
vector (length `nParams`, values `params 0, params 1, ...`). -/
structure H5Transform where
  transformType : String
  fixedParams : List ℚ
  nParams : Nat
  params : Nat → ℚ

/-- A composite HDF5 container: the `TransformGroup` entries in key
order, plus the RAS affine decoded from entry "0" by
`ITKCompositeH5.from_h5obj(h)[0].to_ras()` (a delegated external
decoder per the spec, modelled as data carried by the container). -/
structure H5File where
  affine0 : M4
  group : List (String × H5Transform)

/-- `FIXED_PARAMS` from the source: grid size `[193,229,193]`, origin
`[96,132,-78]`, spacing `[1,1,1]`, direction cosines
`[-1,0,0, 0,-1,0, 0,0,1]` row-major. -/
def FIXED_PARAMS : List ℚ :=
  [193, 229, 193,
   96, 132, -78,
   1, 1, 1,
   -1, 0, 0,
   0, -1, 0,
   0, 0, 1]

/-- One line `[{i}]: {type}\n` of the unknown-transform-type message. -/
def entryLine (kt : String × H5Transform) : String :=
  "[" ++ kt.1 ++ "]: " ++ kt.2.transformType ++ "\n"

/-- The message built by the unknown-transform-type branch:
`msg = 'Unknown transform type [2]\n'` followed by
`msg += f'[{i}]: {...TransformType...}\n'` for every key of the
`TransformGroup`. -/
def unknownTypeMsg (h : H5File) : String :=
  h.group.foldl (fun m kt => m ++ entryLine kt) "Unknown transform type [2]\n"

/-- Rendering of a rational vector inside an error message (models the
Python f-string interpolation of the numpy array; the exact text is
immaterial, only that the vector is reported). -/
def render (l : List ℚ) : String :=
  l.foldl (fun s q => s ++ toString q.num ++ "/" ++ toString q.den ++ " ") ""

/-- The message built by the unexpected-fixed-parameters branch:
`'Unexpected fixed parameters\n'` + `f'Expected: {FIXED_PARAMS}\n'` +
`f'Found: {...}'`. -/
def fixedParamsMsg (t2 : H5Transform) : String :=
  "Unexpected fixed parameters\n" ++ "Expected: " ++ render FIXED_PARAMS ++ "\n"
    ++ "Found: " ++ render t2.fixedParams

/-- C-order reshape of a flat vector to a 4-d array of trailing
dimensions `(d1, d2, d3)` (the leading dimension does not enter the
index arithmetic): element `[i0, i1, i2, i3]` is flat element
`((i0*d1 + i1)*d2 + i2)*d3 + i3`.  This is `numpy.reshape` semantics for
a C-contiguous array. -/
def reshape4 (v : Nat → ℚ) (d1 d2 d3 : Nat) (i0 i1 i2 i3 : Nat) : ℚ :=
  v (((i0 * d1 + i1) * d2 + i2) * d3 + i3)

/-- `numpy.transpose` with axes `(2, 1, 0, 3)`: element `[j0,j1,j2,j3]`
of the result is element `[j2,j1,j0,j3]` of the argument. -/
def transpose2103 (a : Nat → Nat → Nat → Nat → ℚ) (j0 j1 j2 j3 : Nat) : ℚ :=
  a j2 j1 j0 j3

/-- The sign mask `[-1, -1, 1]` broadcast over the last axis of the warp
(`warp *= np.array([-1, -1, 1])`): component `c < 2` is negated,
component `2` is unchanged. -/
def signMask (c : Nat) : ℚ := if c < 2 then -1 else 1

/-- The warp array produced from the flat `TransformParameters` vector:
`warp.reshape((193, 229, 193, 3)).transpose(2, 1, 0, 3)` followed by
`warp *= np.array([-1, -1, 1])`. -/
def warpOf (v : Nat → ℚ) : Warp :=
  fun x y z c => transpose2103 (reshape4 v 229 193 3) x y z c * signMask c

/-- The number of elements `numpy.reshape` requires of the flat
`TransformParameters` vector for target shape `(193, 229, 193, 3)`. -/
def expectedWarpLen : Nat := 193 * 229 * 193 * 3

/-- The hardcoded `warp_affine` of the source: identity linear part,
translation column `(-96, -132, -78)`. -/
def warp_affine : M4 :=
  !![1, 0, 0, -96;
     0, 1, 0, -132;
     0, 0, 1, -78;
     0, 0, 0, 1]

/-- `parse_combined_hdf5`: decode the composite container.  Mirrors the
source line by line: look up `TransformGroup['2']` (a missing key is a
`KeyError`), validate the transform type, validate the fixed parameters,
read and reshape the flat parameter vector (a length mismatch is a
`numpy` reshape `ValueError`), apply the axis permutation and the sign
mask, and return `(affine, warp, warp_affine)`. -/
def parse_combined_hdf5 (h : H5File) : Except String (M4 × Warp × M4) :=
  match h.group.lookup "2" with
  | none => Except.error "KeyError: TransformGroup has no key 2"
  | some t2 =>
    if t2.transformType ≠ "DisplacementFieldTransform_float_3_3" then
      Except.error (unknownTypeMsg h)
    else if t2.fixedParams ≠ FIXED_PARAMS then
      Except.error (fixedParamsMsg t2)
    else if t2.nParams ≠ expectedWarpLen then
      Except.error "cannot reshape TransformParameters to (193, 229, 193, 3)"
    else
      Except.ok (h.affine0, warpOf t2.params, warp_affine)

/-- Handle events performed on the `h5py.File` opened by
`parse_combined_hdf5`. -/
inductive HEvent where
  | hopen : HEvent
  | hclose : HEvent
deriving DecidableEq, Repr

/-- The sequence of handle operations `parse_combined_hdf5` performs on
each of its exit paths, mirroring its control flow: the handle is opened
by `h = h5py.File(h5_fn)` at entry, and the source contains no
`h.close()` and no `with` block, so every path — missing key, unknown
transform type, unexpected fixed parameters, reshape failure, and the
successful return — ends with the handle still open. -/
def parse_combined_hdf5_handle_trace (h : H5File) : List HEvent :=
  match h.group.lookup "2" with
  | none => [HEvent.hopen]
  | some t2 =>
    if t2.transformType ≠ "DisplacementFieldTransform_float_3_3" then
      [HEvent.hopen]
    else if t2.fixedParams ≠ FIXED_PARAMS then
      [HEvent.hopen]
    else if t2.nParams ≠ expectedWarpLen then
      [HEvent.hopen]
    else
      [HEvent.hopen]

/-- The closed tagged-variant set of transform values
(`nitransforms` objects as the spec's §3 data model describes them):
the base identity transform, affines, dense displacement fields,
chains, and the `~`-inverted view of a transform. -/
inductive Transform where
  | base : Transform
  | affine : M4 → Transform
  | dense : Warp → M4 → Transform
  | chain : List Transform → Transform
  | inv : Transform → Transform

/-- Action of a homogeneous 4×4 affine on a 3-d point
(last row `[0,0,0,1]` assumed, per the spec's AffineTransform
invariant). -/
def affineApply (A : M4) (p : Point) : Point :=
  ![A 0 0 * p 0 + A 0 1 * p 1 + A 0 2 * p 2 + A 0 3,
    A 1 0 * p 0 + A 1 1 * p 1 + A 1 2 * p 2 + A 1 3,
    A 2 0 * p 0 + A 2 1 * p 1 + A 2 2 * p 2 + A 2 3]

/-- Computable 4×4 matrix inverse over ℚ (adjugate formula), the model
of `numpy.linalg.inv` / the affine inversion `nitransforms` performs
for `~Affine`. -/
def mat4inv (A : M4) : M4 := (A.det)⁻¹ • A.adjugate

/-- Modelled from the spec (§3, §4.4, §8): point evaluation of a
transform value with an inversion flag.  A chain applies its
last-listed component first, so that the chain built by the source's
reverse-order accumulation evaluates the transforms in the original
forward order of the path list; the inverse of a chain applies the
inverses in reversed order; `d` / `di` give the delegated forward and
inverse dense-field evaluation (external interpolation, out of
scope). -/
def applySigned (d di : DenseEval) : Bool → Transform → Point → Point
  | _, Transform.base, p => p
  | false, Transform.affine A, p => affineApply A p
  | true, Transform.affine A, p => affineApply (mat4inv A) p
  | false, Transform.dense w a, p => d w a p
  | true, Transform.dense w a, p => di w a p
  | s, Transform.inv t, p => applySigned d di (!s) t p
  | false, Transform.chain [], p => p
  | false, Transform.chain (t :: ts), p =>
      applySigned d di false t (applySigned d di false (Transform.chain ts) p)
  | true, Transform.chain [], p => p
  | true, Transform.chain (t :: ts), p =>
      applySigned d di true (Transform.chain ts) (applySigned d di true t p)
termination_by _ t _ => sizeOf t
decreasing_by all_goals (simp <;> omega)

/-- Forward evaluation of a transform at a point. -/
def applyT (d di : DenseEval) (t : Transform) (p : Point) : Point :=
  applySigned d di false t p

/-- A transform file as the loader sees it: either a file whose suffix
is `.h5` (a composite container) or any other path, which
`nt.linear.load` decodes to an affine (delegated ITK linear-transform
decoding, modelled as data carried by the file reference). -/
inductive XfmFile where
  | linear : M4 → XfmFile
  | h5 : H5File → XfmFile

/-- `load_ants_h5`: parse the container and wrap the pieces as
`TransformChain([DenseFieldTransform(warp, warp_affine), Affine(affine)])`. -/
def load_ants_h5 (c : H5File) : Except String Transform :=
  match parse_combined_hdf5 c with
  | Except.error e => Except.error e
  | Except.ok r => Except.ok (Transform.chain [Transform.dense r.2.1 r.2.2, Transform.affine r.1])

/-- Loading of a single path: `.h5` files via `load_ants_h5`, anything
else via `nt.linear.load` (delegated, always yields the affine carried
by the file reference). -/
def loadOne : XfmFile → Except String Transform
  | XfmFile.linear A => Except.ok (Transform.affine A)
  | XfmFile.h5 c => load_ants_h5 c

/-- Modelled from the spec (§4.4): the `~` operator applied at load
time.  Inverting a chain reverses its order and inverts each stage;
inverting an affine inverts the matrix; anything else is wrapped as an
inverted view. -/
def invertXfm : Transform → Transform
  | Transform.affine A => Transform.affine (mat4inv A)
  | Transform.chain ts => Transform.chain ((ts.reverse).map Transform.inv)
  | t => Transform.inv t

/-- Modelled from the spec (§3): `chain += xfm` appends a component to
the end of a chain; adding to a non-chain first forms the two-element
chain `[chain, xfm]`. -/
def addXfm : Transform → Transform → Transform
  | Transform.chain ts, x => Transform.chain (ts ++ [x])
  | t, x => Transform.chain [t, x]

/-- One iteration of the accumulation loop of `load_transforms`: load
the path, invert it if flagged, seed or extend the running chain. -/
def chainStep (chain : Option Transform) (pi : XfmFile × Bool) :
    Except String (Option Transform) :=
  match loadOne pi.1 with
  | Except.error e => Except.error e
  | Except.ok xfm0 =>
    let xfm := if pi.2 then invertXfm xfm0 else xfm0
    match chain with
    | none => Except.ok (some xfm)
    | some c => Except.ok (some (addXfm c xfm))

/-- The loop of `load_transforms`: `for path, inv in
zip(xfm_paths[::-1], inverse[::-1])`, then replace an empty chain by
`nt.base.TransformBase()` (the identity transform, per the function's
own docstring). -/
def buildChain (paths : List XfmFile) (inv : List Bool) : Except String Transform :=
  match List.foldlM chainStep none (List.zip paths.reverse inv.reverse) with
  | Except.error e => Except.error e
  | Except.ok none => Except.ok Transform.base
  | Except.ok (some c) => Except.ok c

/-- `load_transforms`, in state-passing form: the first component of
the result is the final value of the caller's `inverse` list (Python's
`inverse *= len(xfm_paths)` mutates the argument list in place; the
other paths leave it untouched), the second the returned chain or the
raised error. -/
def load_transforms (paths : List XfmFile) (inverse : List Bool) :
    List Bool × Except String Transform :=
  if inverse.length = 1 then
    let inv := List.flatten (List.replicate paths.length inverse)
    (inv, buildChain paths inv)
  else if inverse.length ≠ paths.length then
    (inverse, Except.error "Mismatched number of transforms and inverses")
  else
    (inverse, buildChain paths inverse)

/-- `xs` occurs contiguously inside `ys`. -/
def SubSeg (xs ys : List Char) : Prop := ∃ u v, ys = u ++ xs ++ v

/-! ### Concrete sample containers used by the witnesses -/

/-- Entry "0" of a sample container (composite header record). -/
def headerT : H5Transform :=
  ⟨"CompositeTransform_double_3_3", [], 0, fun _ => 0⟩

/-- Entry "1" of a sample container (the linear stage's record). -/
def affineT : H5Transform :=
  ⟨"AffineTransform_float_3_3", [0, 0, 0], 12, fun _ => 0⟩

/-- A well-formed entry "2": correct type string, the exact
`FIXED_PARAMS` vector, and a full-length parameter vector whose flat
element `n` is the rational `n`. -/
def goodT2 : H5Transform :=
  ⟨"DisplacementFieldTransform_float_3_3", FIXED_PARAMS, expectedWarpLen, fun n => (n : ℚ)⟩

/-- A container that passes every validation. -/
def goodH5 : H5File :=
  ⟨1, [("0", headerT), ("1", affineT), ("2", goodT2)]⟩

/-- An entry "2" whose declared type string is not the supported one. -/
def badTypeT2 : H5Transform :=
  ⟨"DisplacementFieldTransform_double_3_3", FIXED_PARAMS, expectedWarpLen, fun _ => 0⟩

/-- A container whose entry "2" has an unsupported transform type. -/
def badTypeH5 : H5File :=
  ⟨1, [("0", headerT), ("1", affineT), ("2", badTypeT2)]⟩

/-- An entry "2" whose fixed parameters deviate in the first element
(grid size 194 instead of 193). -/
def badFixedT2 : H5Transform :=
  ⟨"DisplacementFieldTransform_float_3_3",
   [194, 229, 193, 96, 132, -78, 1, 1, 1, -1, 0, 0, 0, -1, 0, 0, 0, 1],
   expectedWarpLen, fun _ => 0⟩

/-- A container whose entry "2" has deviating fixed parameters. -/
def badFixedH5 : H5File :=
  ⟨1, [("0", headerT), ("1", affineT), ("2", badFixedT2)]⟩

/-! ### Theorems -/

/-- C1: on every successful parse, the returned warp at `[x, y, z, c]`
is the stored flat element at raster position `[z, y, x, c]` of the
`(193, 229, 193, 3)` reshape, multiplied by `-1` for components
`c ∈ {0, 1}` and by `1` for `c = 2` — the `(2,1,0,3)` axis permutation
turns storage (Z,Y,X) raster order into (X,Y,Z) order and the sign mask
flips the first two displacement components. -/
theorem parse_warp_transpose_negate (h : H5File) (t2 : H5Transform) (r : M4 × Warp × M4)
    (hl : h.group.lookup "2" = some t2)
    (hp : parse_combined_hdf5 h = Except.ok r)
    (x y z c : Nat) (hx : x < 193) (hy : y < 229) (hz : z < 193) (hc : c < 3) :
    r.2.1 x y z c =
      t2.params (((z * 229 + y) * 193 + x) * 3 + c) * (if c < 2 then -1 else 1) := by
  unfold parse_combined_hdf5 at hp
  rw [hl] at hp
  dsimp only at hp
  split_ifs at hp
  injection hp with hp
  subst hp
  rfl

/-- Witness for C1: a concrete well-formed container, evaluated at
index `(x, y, z, c) = (5, 7, 11, 0)`. -/
theorem parse_warp_transpose_negate_witness :
    goodH5.group.lookup "2" = some goodT2 ∧
    parse_combined_hdf5 goodH5 =
      Except.ok (goodH5.affine0, warpOf goodT2.params, warp_affine) ∧
    warpOf goodT2.params 5 7 11 0 =
      goodT2.params (((11 * 229 + 7) * 193 + 5) * 3 + 0) * (if (0 : Nat) < 2 then -1 else 1) :=
  ⟨rfl, rfl,
    parse_warp_transpose_negate goodH5 goodT2
      (goodH5.affine0, warpOf goodT2.params, warp_affine) rfl rfl 5 7 11 0
      (by decide) (by decide) (by decide) (by decide)⟩

/-- C3: `load_transforms [] []` leaves the inverse list empty and
returns the base transform, which maps every point to itself under any
delegated dense-field semantics. -/
theorem load_transforms_empty_identity :
    load_transforms [] [] = ([], Except.ok Transform.base) ∧
    ∀ (d di : DenseEval) (p : Point), applyT d di Transform.base p = p := by
  refine ⟨rfl, ?_⟩
  intro d di p
  simp [applyT, applySigned]

/-- Counterexample for C6: the third component of the translation
column of `warp_affine` is `-78`, which is not the negation of the
third origin component `-78` stored in `FIXED_PARAMS` — the origin's
third component is carried over unchanged, not negated. -/
theorem warp_affine_translation_not_origin_negation :
    ¬ (warp_affine 2 3 = -(FIXED_PARAMS.getD 5 0)) := by
  decide

/-- C6 (amended): on every successful parse the returned `warp_affine`
is the fixed 4×4 matrix with identity linear part and translation
column `(-96, -132, -78)`; that translation equals the stored origin
`(96, 132, -78)` with its first two components negated and the third
component unchanged (the `(-1, -1, 1)` sign pattern), not the full
elementwise negation of the origin. -/
theorem parse_warp_affine_value (h : H5File) (r : M4 × Warp × M4)
    (hp : parse_combined_hdf5 h = Except.ok r) :
    r.2.2 = warp_affine ∧
    r.2.2 0 3 = -(FIXED_PARAMS.getD 3 0) ∧
    r.2.2 1 3 = -(FIXED_PARAMS.getD 4 0) ∧
    r.2.2 2 3 = FIXED_PARAMS.getD 5 0 := by
  unfold parse_combined_hdf5 at hp
  cases hl : h.group.lookup "2" with
  | none => rw [hl] at hp; exact Except.noConfusion hp
  | some t2 =>
    rw [hl] at hp
    dsimp only at hp
    split_ifs at hp
    injection hp with hp
    subst hp
    dsimp only
    exact ⟨rfl, by decide, by decide, by decide⟩

/-- Witness for C6 (amended): the concrete well-formed container. -/
theorem parse_warp_affine_value_witness :
    parse_combined_hdf5 goodH5 =
      Except.ok (goodH5.affine0, warpOf goodT2.params, warp_affine) ∧
    (warp_affine = warp_affine ∧
     warp_affine 0 3 = -(FIXED_PARAMS.getD 3 0) ∧
     warp_affine 1 3 = -(FIXED_PARAMS.getD 4 0) ∧
     warp_affine 2 3 = FIXED_PARAMS.getD 5 0) :=
  ⟨rfl, parse_warp_affine_value goodH5
    (goodH5.affine0, warpOf goodT2.params, warp_affine) rfl⟩

/-- C8: the HDF5 handle opened at the start of `parse_combined_hdf5` is
never closed: on every input the handle trace is exactly one open event
with no close, and in particular on a container failing the
transform-type validation the function raises with the handle still
open.  (The source has no `close()` call and no `with` block.) -/
theorem parse_never_closes_handle :
    (∀ h : H5File, parse_combined_hdf5_handle_trace h = [HEvent.hopen]) ∧
    parse_combined_hdf5 badTypeH5 = Except.error (unknownTypeMsg badTypeH5) ∧
    HEvent.hclose ∉ parse_combined_hdf5_handle_trace badTypeH5 := by
  refine ⟨?_, rfl, by decide⟩
  intro h
  unfold parse_combined_hdf5_handle_trace
  split
  · rfl
  · split_ifs <;> rfl

/-- Counterexample for C9: the flat parameter vector length required by
the reshape, `193 * 229 * 193 * 3`, is 25,590,063 — not the 40,860,279
stated by the spec. -/
theorem expectedWarpLen_value :
    expectedWarpLen = 25590063 ∧ expectedWarpLen ≠ 40860279 := by
  refine ⟨by decide, by decide⟩

/-- C9 (amended): on every successful parse the flat
`TransformParameters` vector read and reshaped has length
`193 * 229 * 193 * 3`, and this product equals 25,590,063. -/
theorem parse_params_length (h : H5File) (t2 : H5Transform) (r : M4 × Warp × M4)
    (hl : h.group.lookup "2" = some t2)
    (hp : parse_combined_hdf5 h = Except.ok r) :
    t2.nParams = expectedWarpLen ∧ expectedWarpLen = 25590063 := by
  unfold parse_combined_hdf5 at hp
  rw [hl] at hp
  dsimp only at hp
  split_ifs at hp with h1 h2 h3
  exact ⟨not_not.mp h3, by decide⟩

/-- Witness for C9 (amended): the concrete well-formed container. -/
theorem parse_params_length_witness :
    goodH5.group.lookup "2" = some goodT2 ∧
    parse_combined_hdf5 goodH5 =
      Except.ok (goodH5.affine0, warpOf goodT2.params, warp_affine) ∧
    (goodT2.nParams = expectedWarpLen ∧ expectedWarpLen = 25590063) :=
  ⟨rfl, rfl, parse_params_length goodH5 goodT2
    (goodH5.affine0, warpOf goodT2.params, warp_affine) rfl rfl⟩

/-- Python's `list * n` as list repetition. -/
theorem flatten_replicate_singleton (n : Nat) (b : Bool) :
    List.flatten (List.replicate n [b]) = List.replicate n b := by
  induction n with
  | zero => rfl
  | succ k ih => simp [List.replicate_succ, ih]

/-- C10: when `inverse` has exactly one element and `paths` a different
length, the caller's `inverse` list is mutated in place by the
`inverse *= len(xfm_paths)` repetition: after the call it holds
`len(paths)` elements and is no longer the original one-element
list. -/
theorem load_transforms_mutates_inverse (paths : List XfmFile) (inverse : List Bool)
    (h1 : inverse.length = 1) (h2 : paths.length ≠ 1) :
    (load_transforms paths inverse).1.length = paths.length ∧
    (load_transforms paths inverse).1 ≠ inverse := by
  obtain ⟨b, rfl⟩ := List.length_eq_one.mp h1
  unfold load_transforms
  rw [if_pos h1]
  refine ⟨?_, ?_⟩
  · simp [flatten_replicate_singleton]
  · intro he
    apply h2
    have hlen := congrArg List.length he
    simpa [flatten_replicate_singleton] using hlen

/-- Witness for C10: two paths, one inversion flag. -/
theorem load_transforms_mutates_inverse_witness :
    ([false] : List Bool).length = 1 ∧
    ([XfmFile.linear 1, XfmFile.linear 1] : List XfmFile).length ≠ 1 ∧
    ((load_transforms [XfmFile.linear 1, XfmFile.linear 1] [false]).1.length = 2 ∧
     (load_transforms [XfmFile.linear 1, XfmFile.linear 1] [false]).1 ≠ [false]) :=
  ⟨rfl, by decide,
    load_transforms_mutates_inverse [XfmFile.linear 1, XfmFile.linear 1] [false]
      rfl (by decide)⟩

/-- C7: a single-element inverse list is broadcast, so
`load_transforms [p1,p2,p3] [b]` and `load_transforms [p1,p2,p3] [b,b,b]`
return the same composed transform (and the same final inverse list). -/
theorem load_transforms_single_inverse_broadcast (p1 p2 p3 : XfmFile) (b : Bool) :
    load_transforms [p1, p2, p3] [b] = load_transforms [p1, p2, p3] [b, b, b] := rfl

/-- Appending one component to a chain post-composes its evaluation:
the appended component is applied first. -/
theorem apply_chain_append (d di : DenseEval) (ts : List Transform) (x : Transform) (p : Point) :
    applySigned d di false (Transform.chain (ts ++ [x])) p =
      applySigned d di false (Transform.chain ts) (applySigned d di false x p) := by
  induction ts with
  | nil => simp [applySigned]
  | cons t ts ih => simp [applySigned, ih]

/-- `chain += xfm` post-composes: the added transform is applied first. -/
theorem apply_addXfm (d di : DenseEval) (c x : Transform) (p : Point) :
    applySigned d di false (addXfm c x) p =
      applySigned d di false c (applySigned d di false x p) := by
  cases c with
  | chain ts => simpa [addXfm] using apply_chain_append d di ts x p
  | base => simp [addXfm, applySigned]
  | affine A => simp [addXfm, applySigned]
  | dense w a => simp [addXfm, applySigned]
  | inv t => simp [addXfm, applySigned]

/-- The accumulation loop over non-inverted linear files never fails and
folds each affine onto the chain with `addXfm`. -/
theorem foldlM_linear_steps (rs : List M4) (c : Transform) :
    List.foldlM chainStep (some c) (rs.map (fun A => (XfmFile.linear A, false))) =
      Except.ok (some (rs.foldl (fun t A => addXfm t (Transform.affine A)) c)) := by
  induction rs generalizing c with
  | nil => rfl
  | cons A rs ih => simpa [chainStep, loadOne] using ih (addXfm c (Transform.affine A))

/-- Evaluating the chain accumulated from a list of affines applies the
last-folded affine first. -/
theorem apply_foldl_addXfm (d di : DenseEval) (rs : List M4) (c : Transform) (p : Point) :
    applySigned d di false (rs.foldl (fun t A => addXfm t (Transform.affine A)) c) p =
      applySigned d di false c (rs.foldr (fun A q => affineApply A q) p) := by
  induction rs generalizing c with
  | nil => rfl
  | cons A rs ih =>
    simp only [List.foldl_cons, List.foldr_cons]
    rw [ih, apply_addXfm]
    simp [applySigned]

/-- Zipping linear files with an all-false flag list of the same
length. -/
theorem zip_linear_replicate (rs : List M4) :
    List.zip (rs.map XfmFile.linear) (List.replicate rs.length false) =
      rs.map (fun A => (XfmFile.linear A, false)) := by
  induction rs with
  | nil => rfl
  | cons A rs ih => simp [List.replicate_succ, ih]

/-- `load_transforms` on an inverse list that is already all-false of
matching length reduces to the plain chain construction (for length 1
the broadcast is the identity). -/
theorem load_transforms_replicate_false (ps : List XfmFile) :
    load_transforms ps (List.replicate ps.length false) =
      (List.replicate ps.length false, buildChain ps (List.replicate ps.length false)) := by
  unfold load_transforms
  by_cases h : (List.replicate ps.length false).length = 1
  · rw [if_pos h]
    have hn : ps.length = 1 := by simpa using h
    rw [hn]
    simp
  · rw [if_neg h, if_neg (by simp)]

/-- The chain built from non-inverted linear files evaluates them in the
original forward order of the path list. -/
theorem buildChain_linear (As : List M4) (hne : As ≠ []) :
    ∃ t, buildChain (As.map XfmFile.linear) (List.replicate As.length false) =
          Except.ok t ∧
        ∀ (d di : DenseEval) (p : Point),
          applyT d di t p = As.foldl (fun q A => affineApply A q) p := by
  obtain ⟨r, rest, hrs⟩ : ∃ r rest, As.reverse = r :: rest := by
    cases hAs : As.reverse with
    | nil => exact absurd (by simpa using congrArg List.reverse hAs) hne
    | cons r rest => exact ⟨r, rest, rfl⟩
  have hzip : List.zip ((As.map XfmFile.linear).reverse)
        ((List.replicate As.length false).reverse) =
      (As.reverse).map (fun A => (XfmFile.linear A, false)) := by
    rw [← List.map_reverse, List.reverse_replicate]
    rw [show As.length = As.reverse.length from (List.length_reverse As).symm]
    exact zip_linear_replicate As.reverse
  refine ⟨rest.foldl (fun t A => addXfm t (Transform.affine A)) (Transform.affine r), ?_, ?_⟩
  · unfold buildChain
    rw [hzip, hrs]
    rw [show List.foldlM chainStep none
          (List.map (fun A => (XfmFile.linear A, false)) (r :: rest)) =
        List.foldlM chainStep (some (Transform.affine r))
          (List.map (fun A => (XfmFile.linear A, false)) rest) from rfl]
    rw [foldlM_linear_steps]
  · intro d di p
    unfold applyT
    rw [apply_foldl_addXfm]
    have : applySigned d di false (Transform.affine r)
        (rest.foldr (fun A q => affineApply A q) p) =
        (r :: rest).foldr (fun A q => affineApply A q) p := by
      simp [applySigned]
    rw [this, ← hrs, List.foldr_reverse]

/-- C2: for every non-empty list of affine transform files with all
inversion flags false, the returned chain applies the transforms in the
original forward order of the path list (the first-listed transform
acts on the point first). -/
theorem load_transforms_forward_order (As : List M4) (hne : As ≠ [])
    (d di : DenseEval) (p : Point) :
    ∃ t, load_transforms (As.map XfmFile.linear) (List.replicate As.length false) =
          (List.replicate As.length false, Except.ok t) ∧
        applyT d di t p = As.foldl (fun q A => affineApply A q) p := by
  obtain ⟨t, hb, hap⟩ := buildChain_linear As hne
  refine ⟨t, ?_, hap d di p⟩
  have hnorm := load_transforms_replicate_false (As.map XfmFile.linear)
  rw [List.length_map] at hnorm
  rw [hnorm, hb]

/-- The translation-by-(1,0,0) affine of the composition-order test. -/
def transA : M4 :=
  !![1, 0, 0, 1;
     0, 1, 0, 0;
     0, 0, 1, 0;
     0, 0, 0, 1]

/-- The translation-by-(0,1,0) affine of the composition-order test. -/
def transB : M4 :=
  !![1, 0, 0, 0;
     0, 1, 0, 1;
     0, 0, 1, 0;
     0, 0, 0, 1]

/-- A trivial dense-field evaluation used to instantiate the delegated
interpolation in witnesses. -/
def idDense : DenseEval := fun _ _ p => p

/-- Witness for C2: files `[A, B]` translating by `(1,0,0)` and
`(0,1,0)`, applied to the origin, yield `(1,1,0)` — `A` first, then
`B`. -/
theorem load_transforms_forward_order_witness :
    ([transA, transB] : List M4) ≠ [] ∧
    (∃ t, load_transforms ([transA, transB].map XfmFile.linear)
            (List.replicate ([transA, transB] : List M4).length false) =
          (List.replicate ([transA, transB] : List M4).length false, Except.ok t) ∧
        applyT idDense idDense t ![0, 0, 0] =
          [transA, transB].foldl (fun q A => affineApply A q) ![0, 0, 0]) ∧
    [transA, transB].foldl (fun q A => affineApply A q) ![0, 0, 0] = ![1, 1, 0] :=
  ⟨by simp,
    load_transforms_forward_order [transA, transB] (by simp) idDense idDense ![0, 0, 0],
    by
      show affineApply transB (affineApply transA ![0, 0, 0]) = ![1, 1, 0]
      funext i
      fin_cases i <;>
        norm_num [affineApply, transA, transB, Matrix.vecHead, Matrix.vecTail]⟩

/-- The message accumulator only grows: the fold over the group entries
appends to whatever prefix it starts from. -/
theorem foldl_entryLine_decomp (l : List (String × H5Transform)) (acc : String) :
    ∃ s, (l.foldl (fun m kt => m ++ entryLine kt) acc).data = acc.data ++ s := by
  induction l generalizing acc with
  | nil => exact ⟨[], by simp⟩
  | cons kt l ih =>
    obtain ⟨s, hs⟩ := ih (acc ++ entryLine kt)
    exact ⟨(entryLine kt).data ++ s, by simp [hs, String.data_append]⟩

/-- Every group entry's declared type string occurs contiguously in the
accumulated unknown-transform-type message. -/
theorem foldl_entryLine_mem (l : List (String × H5Transform)) (acc : String)
    (kt : String × H5Transform) (hmem : kt ∈ l) :
    SubSeg kt.2.transformType.data
      (l.foldl (fun m kt => m ++ entryLine kt) acc).data := by
  induction l generalizing acc with
  | nil => cases hmem
  | cons hd l ih =>
    rw [List.mem_cons] at hmem
    rcases hmem with rfl | hmem
    · obtain ⟨s, hs⟩ := foldl_entryLine_decomp l (acc ++ entryLine kt)
      refine ⟨acc.data ++ "[".data ++ kt.1.data ++ "]: ".data, "\n".data ++ s, ?_⟩
      simp only [List.foldl_cons] at hs ⊢
      rw [hs]
      simp [entryLine, String.data_append, List.append_assoc]
    · exact ih (acc ++ entryLine hd) hmem

/-- C4: if entry "2" declares any type string other than
`DisplacementFieldTransform_float_3_3`, the parse fails with the
unsupported-transform-type error, whose message contains the declared
type of every entry of the `TransformGroup`. -/
theorem parse_unknown_type (h : H5File) (t2 : H5Transform)
    (hl : h.group.lookup "2" = some t2)
    (ht : t2.transformType ≠ "DisplacementFieldTransform_float_3_3") :
    parse_combined_hdf5 h = Except.error (unknownTypeMsg h) ∧
    ∀ kt ∈ h.group, SubSeg kt.2.transformType.data (unknownTypeMsg h).data := by
  constructor
  · unfold parse_combined_hdf5
    rw [hl]
    dsimp only
    rw [if_pos ht]
  · intro kt hmem
    exact foldl_entryLine_mem h.group _ kt hmem

/-- Witness for C4: a container whose entry "2" declares
`DisplacementFieldTransform_double_3_3`; its type appears in the raised
message. -/
theorem parse_unknown_type_witness :
    badTypeH5.group.lookup "2" = some badTypeT2 ∧
    badTypeT2.transformType ≠ "DisplacementFieldTransform_float_3_3" ∧
    (parse_combined_hdf5 badTypeH5 = Except.error (unknownTypeMsg badTypeH5) ∧
     SubSeg badTypeT2.transformType.data (unknownTypeMsg badTypeH5).data) :=
  ⟨rfl, by decide,
    (parse_unknown_type badTypeH5 badTypeT2 rfl (by decide)).1,
    (parse_unknown_type badTypeH5 badTypeT2 rfl (by decide)).2
      ("2", badTypeT2) (by simp [badTypeH5])⟩

/-- C5: a fixed-parameters vector deviating in any single element from
`FIXED_PARAMS` makes the parse fail with the unexpected-fixed-parameters
error, whose message reports both the expected and the found vectors. -/
theorem parse_bad_fixed_params (h : H5File) (t2 : H5Transform)
    (hl : h.group.lookup "2" = some t2)
    (ht : t2.transformType = "DisplacementFieldTransform_float_3_3")
    (hlen : t2.fixedParams.length = 18) (i : Nat) (hi : i < 18)
    (hne : t2.fixedParams.getD i 0 ≠ FIXED_PARAMS.getD i 0) :
    parse_combined_hdf5 h = Except.error (fixedParamsMsg t2) ∧
    SubSeg (render FIXED_PARAMS).data (fixedParamsMsg t2).data ∧
    SubSeg (render t2.fixedParams).data (fixedParamsMsg t2).data := by
  have hfp : t2.fixedParams ≠ FIXED_PARAMS := fun he => hne (by rw [he])
  refine ⟨?_, ?_, ?_⟩
  · unfold parse_combined_hdf5
    rw [hl]
    dsimp only
    rw [if_neg (by simp [ht]), if_pos hfp]
  · refine ⟨("Unexpected fixed parameters\n" ++ "Expected: ").data,
      ("\n" ++ "Found: " ++ render t2.fixedParams).data, ?_⟩
    simp [fixedParamsMsg, String.data_append, List.append_assoc]
  · refine ⟨("Unexpected fixed parameters\n" ++ "Expected: " ++ render FIXED_PARAMS
      ++ "\n" ++ "Found: ").data, [], ?_⟩
    simp [fixedParamsMsg, String.data_append, List.append_assoc]

/-- Witness for C5: fixed parameters whose first element is 194 instead
of 193. -/
theorem parse_bad_fixed_params_witness :
    badFixedH5.group.lookup "2" = some badFixedT2 ∧
    badFixedT2.fixedParams.length = 18 ∧
    badFixedT2.fixedParams.getD 0 0 ≠ FIXED_PARAMS.getD 0 0 ∧
    (parse_combined_hdf5 badFixedH5 = Except.error (fixedParamsMsg badFixedT2) ∧
     SubSeg (render FIXED_PARAMS).data (fixedParamsMsg badFixedT2).data ∧
     SubSeg (render badFixedT2.fixedParams).data (fixedParamsMsg badFixedT2).data) :=
  ⟨rfl, by decide, by decide,
    parse_bad_fixed_params badFixedH5 badFixedT2 rfl rfl (by decide) 0
      (by decide) (by decide)⟩

end FmriprepTransforms
